import Mathlib

/-!
Shallow embedding of `src/csrc/pw_wrapper.c` (the PipeWire filter bridge of
pw-comp).  The header `pw_wrapper.h` contains an older, inconsistent variant
of the data structure (single `in_port`/`out_port`); the `.c` file, which is
the complete implementation, is the authority here and is what we embed.

Host interactions (`pw_filter_dequeue_buffer`, `pw_filter_get_dsp_buffer`,
`pw_filter_queue_buffer`, `process_channel_go`, `log_from_c`) are modelled by
an environment that says what each dequeue/acquire call returns for each
channel, and by a trace of events the callback emits, in program order.
Pointers and buffer identities are modelled as natural numbers.
-/

namespace PwComp

/-- Direction of a filter port: `PW_DIRECTION_INPUT` or `PW_DIRECTION_OUTPUT`. -/
inductive Direction where
  | input
  | output
deriving DecidableEq

/-- Observable actions of one `on_process` invocation, in program order.
`chDebug`, `warnNoOut` and `summary` model the `log_from_c` calls (we record
the formatted numbers rather than the formatted text); `zeroFill` models the
`memset`; `dspStep` models the call to the external `process_channel_go`;
`requeueIn`/`requeueOut` model `pw_filter_queue_buffer` on the channel's
input/output port. -/
inductive Event where
  | chDebug (ch : Nat) (inBuf outBuf : Option Nat)
  | warnNoOut (ch : Nat)
  | summary (cnt samples rate : Nat)
  | zeroFill (ptr samples : Nat)
  | dspStep (inPtr outPtr samples rate ch : Nat)
  | requeueIn (ch buf : Nat)
  | requeueOut (ch buf : Nat)
deriving DecidableEq

/-- What the host returns for one channel during one quantum:
`in_buf`/`out_buf` are the results of `pw_filter_dequeue_buffer` on the
channel's input/output port (`none` = NULL) and `in_dsp`/`out_dsp` are the
results of `pw_filter_get_dsp_buffer` on those ports, were they to be
called (`none` = NULL). -/
structure ChannelEnv where
  in_buf : Option Nat
  out_buf : Option Nat
  in_dsp : Option Nat
  out_dsp : Option Nat
deriving DecidableEq

/-- The `struct spa_io_position` fields `on_process` reads:
`clock.duration` (samples in this quantum) and `clock.rate.denom`. -/
structure Position where
  duration : Nat
  rateDenom : Nat
deriving DecidableEq

/-- Requeue of the input buffer, lines 77, 84 and 100 of `pw_wrapper.c`:
`if (in_buf) pw_filter_queue_buffer(data->in_ports[i], in_buf)`. -/
def requeueInEvents (i : Nat) (in_buf : Option Nat) : List Event :=
  match in_buf with
  | some b => [Event.requeueIn i b]
  | none => []

/-- Body of the per-channel loop of `on_process` (lines 61-102 of
`pw_wrapper.c`) for channel `i`, given the already-incremented value of the
static counter `process_cnt`, the quantum size `n_samples` and the effective
`sample_rate`.  Returns the events the iteration emits, in program order. -/
def processChannel (process_cnt n_samples sample_rate i : Nat)
    (env : ChannelEnv) : List Event :=
  let in_buf := env.in_buf
  let out_buf := env.out_buf
  let dbg : List Event :=
    if process_cnt < 20 then [Event.chDebug i in_buf out_buf] else []
  match out_buf with
  | none =>
      let warn : List Event :=
        if process_cnt < 50 ∧ process_cnt % 10 = 0 then [Event.warnNoOut i] else []
      dbg ++ warn ++ requeueInEvents i in_buf
  | some ob =>
      match env.out_dsp with
      | none =>
          dbg ++ [Event.requeueOut i ob] ++ requeueInEvents i in_buf
      | some out =>
          let inPtr : Option Nat :=
            match in_buf with
            | some _ => env.in_dsp
            | none => none
          let core : List Event :=
            match inPtr with
            | some inp => [Event.dspStep inp out n_samples sample_rate i]
            | none =>
                [Event.zeroFill out n_samples,
                 Event.dspStep out out n_samples sample_rate i]
          dbg ++ core ++ requeueInEvents i in_buf ++ [Event.requeueOut i ob]

/-- Effective sample rate of `on_process`: `sample_rate` is initialised to
48000 and overwritten by `position->clock.rate.denom` when that is > 0
(lines 42, 48-49 of `pw_wrapper.c`). -/
def effectiveRate (p : Position) : Nat :=
  if p.rateDenom > 0 then p.rateDenom else 48000

/-- The rate-limited process-cycle summary of `on_process` (lines 54-58):
emitted when `process_cnt < 20 || process_cnt % 100 == 0`. -/
def summaryEvents (process_cnt n_samples sample_rate : Nat) : List Event :=
  if process_cnt < 20 ∨ process_cnt % 100 = 0 then
    [Event.summary process_cnt n_samples sample_rate]
  else []

/-- The `on_process` callback (lines 39-103 of `pw_wrapper.c`).
`process_cnt` is the value of the static counter after the `process_cnt++`
at entry (so its first value is 1); `pos` is NULL or the host-supplied
position; `env` gives, per channel, what the host's dequeue/acquire calls
return.  When `pos` is NULL the callback returns immediately (after the
counter increment) and emits nothing. -/
def on_process (channels process_cnt : Nat) (pos : Option Position)
    (env : Nat → ChannelEnv) : List Event :=
  match pos with
  | none => []
  | some p =>
      let n_samples := p.duration
      let sample_rate := effectiveRate p
      summaryEvents process_cnt n_samples sample_rate ++
        (List.range channels).flatMap
          (fun i => processChannel process_cnt n_samples sample_rate i (env i))

/-- Recogniser for DSP-step events. -/
def isDspStep : Event → Bool
  | Event.dspStep .. => true
  | _ => false

/-- The subsequence of DSP-step events of a trace. -/
def dspSteps (t : List Event) : List Event :=
  t.filter isDspStep

/-- Recogniser for process-cycle summary events. -/
def isSummary : Event → Bool
  | Event.summary .. => true
  | _ => false

/-! ### Channel labels and positions (`get_channel_config`) -/

/-- SPA channel position tags used by the module: `SPA_AUDIO_CHANNEL_FL`,
`SPA_AUDIO_CHANNEL_FR`, `SPA_AUDIO_CHANNEL_MONO`, and the distinct
`SPA_AUDIO_CHANNEL_UNKNOWN` ("unspecified") tag, which the implementation
never emits but which we need to state the claimed port-position policy. -/
inductive ChannelPos where
  | fl
  | fr
  | mono
  | unspec
deriving DecidableEq

/-- Character of a decimal digit, as `snprintf` renders it. -/
def decDigitChar (d : Nat) : Char :=
  match d with
  | 0 => '0'
  | 1 => '1'
  | 2 => '2'
  | 3 => '3'
  | 4 => '4'
  | 5 => '5'
  | 6 => '6'
  | 7 => '7'
  | 8 => '8'
  | _ => '9'

/-- Little-endian decimal digits of `n`, with explicit fuel so that the
recursion is structural; `fuel ≥ n` is always enough. -/
def decDigits (fuel n : Nat) : List Nat :=
  match fuel with
  | 0 => []
  | f + 1 => if n = 0 then [] else n % 10 :: decDigits f (n / 10)

/-- Decimal rendering of a natural number, as `snprintf("%d", n)` renders a
non-negative int. -/
def natDecimal (n : Nat) : String :=
  ⟨if n = 0 then ['0'] else ((decDigits n n).map decDigitChar).reverse⟩

/-- Value of a little-endian digit list; left inverse of `decDigits`,
used only in proofs. -/
def decVal : List Nat → Nat
  | [] => 0
  | d :: ds => d + 10 * decVal ds

/-- The helper `get_channel_config` (lines 113-129 of `pw_wrapper.c`):
channel label and SPA position for channel `i` of `total`.  Note that the
`total > 2` branch sets the position to `SPA_AUDIO_CHANNEL_MONO` (the code
comment on line 180 confirms "MONO Position"). -/
def get_channel_config (i total : Nat) : String × ChannelPos :=
  if total = 2 then
    if i = 0 then ("FL", ChannelPos.fl) else ("FR", ChannelPos.fr)
  else if total = 1 then
    ("MONO", ChannelPos.mono)
  else
    ("CH" ++ natDecimal (i + 1), ChannelPos.mono)

/-! ### Filter construction (`create_pipewire_filter`) -/

/-- One port as created by `pw_filter_add_port` in the construction loop:
its direction, its `PW_KEY_PORT_NAME`, and the channel index and position
stored into/declared for it. -/
structure Port where
  direction : Direction
  name : String
  channel : Nat
  pos : ChannelPos
deriving DecidableEq

/-- Name prefix of a port: `input_` or `output_` (lines 195 and 215 of
`pw_wrapper.c`). -/
def dirTag : Direction → String
  | Direction.input => "input_"
  | Direction.output => "output_"

/-- The port the construction loop creates for direction `d` of channel `i`
out of `channels`: name `input_<label>` or `output_<label>`, with the label
and position from `get_channel_config`. -/
def mkPort (d : Direction) (i channels : Nat) : Port :=
  let c := get_channel_config i channels
  { direction := d
    name := dirTag d ++ c.1
    channel := i
    pos := c.2 }

/-- The full port list of a successful construction: for each channel, one
input port then one output port, in loop order. -/
def createPorts (channels : Nat) : List Port :=
  (List.range channels).flatMap
    (fun i => [mkPort Direction.input i channels, mkPort Direction.output i channels])

/-- Resources `create_pipewire_filter` allocates: the `calloc`ed
`pw_filter_data` node, the context, the core connection, the filter object,
the two `calloc`ed port-pointer arrays, and the individual ports (which are
owned by the filter object and destroyed with it). -/
inductive Resource where
  | node
  | ctx
  | core
  | filterObj
  | inArr
  | outArr
  | port (d : Direction) (i : Nat)
deriving DecidableEq

/-- The resource a created port occupies. -/
def portRes (p : Port) : Resource :=
  Resource.port p.direction p.channel

/-- Success/failure of each fallible external call `create_pipewire_filter`
makes: `pw_context_new`, `pw_context_connect`, `pw_filter_new`,
`pw_filter_add_port` for each direction and index, and
`pw_filter_connect`.  (`calloc` and `pw_properties_new` are modelled as
always succeeding; the code never checks them.) -/
structure CreateEnv where
  ctx_ok : Bool
  core_ok : Bool
  filter_ok : Bool
  in_port_ok : Nat → Bool
  out_port_ok : Nat → Bool
  connect_ok : Bool

/-- The value a successful `create_pipewire_filter` returns: the channel
count and the ports it created. -/
structure Handle where
  channels : Nat
  ports : List Port
deriving DecidableEq

/-- Outcome of one `create_pipewire_filter` call: the returned handle
(`none` = NULL), every resource allocated during the call, and every
resource released during the call, each in program order. -/
structure CreateResult where
  handle : Option Handle
  allocated : List Resource
  freed : List Resource
deriving DecidableEq

/-- The port-creation loop (lines 172-234 of `pw_wrapper.c`), iterating
channel index `i` with `r` iterations left: creates the input then the
output port of each channel, stopping at the first failure.  Returns
whether the loop completed and the ports created (in creation order),
including the ones created before a failure. -/
def portsLoop (env : CreateEnv) (channels : Nat) : Nat → Nat → Bool × List Port
  | _, 0 => (true, [])
  | i, r + 1 =>
    if env.in_port_ok i then
      if env.out_port_ok i then
        let rest := portsLoop env channels (i + 1) r
        (rest.1, mkPort Direction.input i channels ::
                 mkPort Direction.output i channels :: rest.2)
      else (false, [mkPort Direction.input i channels])
    else (false, [])

/-- Resources allocated before the port loop starts, in allocation order. -/
def baseAlloc : List Resource :=
  [Resource.node, Resource.ctx, Resource.core, Resource.filterObj,
   Resource.inArr, Resource.outArr]

/-- What `destroy_pipewire_filter` (lines 253-262 of `pw_wrapper.c`)
releases when every field of the node is set: `pw_filter_destroy` releases
the filter object together with the ports it owns, then the core is
disconnected, the context destroyed, the two port arrays freed, and the
node freed. -/
def destroyFreed (ports : List Port) : List Resource :=
  ports.map portRes ++
    [Resource.filterObj, Resource.core, Resource.ctx,
     Resource.inArr, Resource.outArr, Resource.node]

/-- The `create_pipewire_filter` function (lines 131-251 of
`pw_wrapper.c`).  `loop` is the borrowed main-loop argument (`none` =
NULL); `env` says which fallible external call succeeds.  Each failing
branch mirrors the cleanup the code performs on that branch. -/
def create (loop : Option Unit) (channels : Nat) (env : CreateEnv) :
    CreateResult :=
  match loop with
  | none => ⟨none, [], []⟩
  | some _ =>
    if env.ctx_ok = false then
      ⟨none, [Resource.node], [Resource.node]⟩
    else if env.core_ok = false then
      ⟨none, [Resource.node, Resource.ctx], [Resource.ctx, Resource.node]⟩
    else if env.filter_ok = false then
      ⟨none, [Resource.node, Resource.ctx, Resource.core],
       [Resource.core, Resource.ctx, Resource.node]⟩
    else
      let lp := portsLoop env channels 0 channels
      let alloc := baseAlloc ++ lp.2.map portRes
      if lp.1 = false then
        ⟨none, alloc, destroyFreed lp.2⟩
      else if env.connect_ok = false then
        ⟨none, alloc, destroyFreed lp.2⟩
      else
        ⟨some ⟨channels, lp.2⟩, alloc, []⟩

/-- One of the fallible construction steps named by the spec fails within
the range the call actually exercises. -/
def stepFails (env : CreateEnv) (channels : Nat) : Prop :=
  env.ctx_ok = false ∨ env.core_ok = false ∨ env.filter_ok = false ∨
    (∃ i < channels, env.in_port_ok i = false ∨ env.out_port_ok i = false) ∨
    env.connect_ok = false

/-- Every fallible construction step the call exercises succeeds. -/
def allOk (env : CreateEnv) (channels : Nat) : Prop :=
  env.ctx_ok = true ∧ env.core_ok = true ∧ env.filter_ok = true ∧
    (∀ i < channels, env.in_port_ok i = true ∧ env.out_port_ok i = true) ∧
    env.connect_ok = true

/-! ### Teardown (`destroy_pipewire_filter`) and the handle it receives -/

/-- State of the pointer a caller passes to `destroy_pipewire_filter`:
NULL, a pointer to a live node, or a pointer whose node has already been
freed (the pointer value itself is unchanged by `free`). -/
inductive HandleRef where
  | null
  | live
  | dangling
deriving DecidableEq

/-- One call to `destroy_pipewire_filter` (lines 253-262 of
`pw_wrapper.c`) under the C memory model.  A NULL argument returns
immediately (`if (!data) return;`).  A live node is torn down and freed,
leaving the caller's pointer dangling.  A dangling argument is not NULL, so
the guard passes and `data->filter` is read from freed memory: undefined
behaviour, modelled as a fault (`none`). -/
def destroyRef : HandleRef → Option HandleRef
  | HandleRef.null => some HandleRef.null
  | HandleRef.live => some HandleRef.dangling
  | HandleRef.dangling => none

/-! ### Auxiliary predicates and concrete environments used in statements -/

/-- Whether a port is an input port. -/
def isInputPort (p : Port) : Bool :=
  match p.direction with
  | Direction.input => true
  | Direction.output => false

/-- Whether a port is an output port. -/
def isOutputPort (p : Port) : Bool :=
  match p.direction with
  | Direction.input => false
  | Direction.output => true

/-- A concrete fully-connected host environment: every dequeue and every
block acquisition succeeds, with distinct buffer and block identities per
channel. -/
def envFull : Nat → ChannelEnv :=
  fun i => ⟨some (10 + i), some (20 + i), some (30 + i), some (40 + i)⟩

/-- A concrete construction environment in which only the final connect
request fails. -/
def envConnFail : CreateEnv :=
  ⟨true, true, true, fun _ => true, fun _ => true, false⟩

/-- A concrete construction environment in which every step succeeds. -/
def envAllOk : CreateEnv :=
  ⟨true, true, true, fun _ => true, fun _ => true, true⟩

/-! ## Lemmas -/

lemma decDigitChar_inj (a b : Nat) (ha : a < 10) (hb : b < 10) :
    decDigitChar a = decDigitChar b → a = b := by
  interval_cases a <;> interval_cases b <;> decide

lemma decDigits_lt10 : ∀ fuel n, ∀ d ∈ decDigits fuel n, d < 10 := by
  intro fuel
  induction fuel with
  | zero => intro n d hd; simp [decDigits] at hd
  | succ f ih =>
      intro n d hd
      by_cases hn : n = 0
      · simp [decDigits, hn] at hd
      · simp only [decDigits, hn, if_false, ite_false, List.mem_cons] at hd
        rcases hd with h | h
        · omega
        · exact ih _ _ h

lemma map_decDigitChar_inj :
    ∀ l1 l2 : List Nat, (∀ d ∈ l1, d < 10) → (∀ d ∈ l2, d < 10) →
      l1.map decDigitChar = l2.map decDigitChar → l1 = l2 := by
  intro l1
  induction l1 with
  | nil => intro l2 _ _ h; cases l2 <;> simp_all
  | cons a t ih =>
      intro l2 h1 h2 h
      cases l2 with
      | nil => simp at h
      | cons b t2 =>
          simp only [List.map_cons, List.cons.injEq] at h
          have hab : a = b :=
            decDigitChar_inj a b (h1 a (by simp)) (h2 b (by simp)) h.1
          subst hab
          have ht : t = t2 :=
            ih t2 (fun d hd => h1 d (by simp [hd])) (fun d hd => h2 d (by simp [hd])) h.2
          simp [ht]

lemma decVal_decDigits : ∀ fuel n, n < 10 ^ fuel → decVal (decDigits fuel n) = n := by
  intro fuel
  induction fuel with
  | zero => intro n h; interval_cases n; simp [decDigits, decVal]
  | succ f ih =>
      intro n h
      by_cases hn : n = 0
      · simp [decDigits, hn, decVal]
      · have hlt : n < 10 ^ f * 10 := by
          calc n < 10 ^ (f + 1) := h
          _ = 10 ^ f * 10 := by ring
        have hdiv : n / 10 < 10 ^ f := by omega
        simp only [decDigits, hn, if_false, ite_false, decVal, ih _ hdiv]
        omega

lemma natDecimal_inj (m n : Nat) (hm : m ≠ 0) (hn : n ≠ 0) :
    natDecimal m = natDecimal n → m = n := by
  intro h
  have hd : ((decDigits m m).map decDigitChar).reverse =
      ((decDigits n n).map decDigitChar).reverse := by
    have := congrArg String.data h
    simpa [natDecimal, hm, hn] using this
  have hmap := List.reverse_inj.mp hd
  have hdig := map_decDigitChar_inj _ _ (decDigits_lt10 m m) (decDigits_lt10 n n) hmap
  have h1 := decVal_decDigits m m (Nat.lt_pow_self (by norm_num) m)
  have h2 := decVal_decDigits n n (Nat.lt_pow_self (by norm_num) n)
  rw [← h1, ← h2, hdig]

lemma string_append_cancel_left {s a b : String} (h : s ++ a = s ++ b) : a = b := by
  apply String.ext
  have hd := congrArg String.data h
  rw [String.data_append, String.data_append] at hd
  exact List.append_cancel_left hd

lemma input_output_name_ne (a b : String) : "input_" ++ a ≠ "output_" ++ b := by
  intro h
  have hd := congrArg String.data h
  rw [String.data_append, String.data_append] at hd
  rw [show "input_".data = ['i','n','p','u','t','_'] from rfl,
      show "output_".data = ['o','u','t','p','u','t','_'] from rfl] at hd
  simp only [List.cons_append, List.nil_append] at hd
  injection hd with h1 _
  exact absurd h1 (by decide)

lemma label_inj (N i j : Nat) (hi : i < N) (hj : j < N)
    (h : (get_channel_config i N).1 = (get_channel_config j N).1) : i = j := by
  by_cases h2 : N = 2
  · subst h2
    interval_cases i <;> interval_cases j <;> revert h <;> decide
  · by_cases h1 : N = 1
    · omega
    · have ei : (get_channel_config i N).1 = "CH" ++ natDecimal (i + 1) := by
        simp [get_channel_config, h2, h1]
      have ej : (get_channel_config j N).1 = "CH" ++ natDecimal (j + 1) := by
        simp [get_channel_config, h2, h1]
      rw [ei, ej] at h
      have := natDecimal_inj (i + 1) (j + 1) (by omega) (by omega)
        (string_append_cancel_left h)
      omega

lemma mkPort_name_inj (N : Nat) (d1 d2 : Direction) (i j : Nat) (hi : i < N) (hj : j < N)
    (h : (mkPort d1 i N).name = (mkPort d2 j N).name) :
    mkPort d1 i N = mkPort d2 j N := by
  have hname : dirTag d1 ++ (get_channel_config i N).1 =
      dirTag d2 ++ (get_channel_config j N).1 := h
  cases d1 <;> cases d2
  · have := label_inj N i j hi hj (string_append_cancel_left hname)
    subst this; rfl
  · exact absurd hname (input_output_name_ne _ _)
  · exact absurd hname.symm (input_output_name_ne _ _)
  · have := label_inj N i j hi hj (string_append_cancel_left hname)
    subst this; rfl

lemma mem_createPorts {N : Nat} {p : Port} :
    p ∈ createPorts N ↔
      ∃ i, i < N ∧ (p = mkPort Direction.input i N ∨ p = mkPort Direction.output i N) := by
  simp [createPorts, List.mem_flatMap, List.mem_range]

lemma createPorts_names_unique (N : Nat) :
    ∀ p ∈ createPorts N, ∀ q ∈ createPorts N, p.name = q.name → p = q := by
  intro p hp q hq h
  rcases mem_createPorts.mp hp with ⟨i, hi, hp'⟩
  rcases mem_createPorts.mp hq with ⟨j, hj, hq'⟩
  rcases hp' with hp' | hp' <;> rcases hq' with hq' | hq' <;> subst hp' <;> subst hq' <;>
    exact mkPort_name_inj N _ _ i j hi hj h

lemma createPorts_counts (N : Nat) :
    (createPorts N).length = 2 * N ∧
      (createPorts N).countP isInputPort = N ∧
      (createPorts N).countP isOutputPort = N := by
  have key : ∀ (l : List Nat) (C : Nat),
      ((l.flatMap (fun i => [mkPort Direction.input i C, mkPort Direction.output i C])).length
          = 2 * l.length) ∧
      ((l.flatMap (fun i => [mkPort Direction.input i C, mkPort Direction.output i C])).countP
          isInputPort = l.length) ∧
      ((l.flatMap (fun i => [mkPort Direction.input i C, mkPort Direction.output i C])).countP
          isOutputPort = l.length) := by
    intro l C
    induction l with
    | nil => simp
    | cons a t ih =>
        simp only [List.flatMap_cons, List.length_append, List.countP_append,
          List.countP_cons, List.length_cons, ih.1, ih.2.1, ih.2.2]
        simp [isInputPort, isOutputPort, mkPort]
        omega
  have := key (List.range N) N
  simpa [createPorts, List.length_range] using this

lemma portsLoop_allOk (env : CreateEnv) (C : Nat) :
    ∀ r i, (∀ k < r, env.in_port_ok (i + k) = true ∧ env.out_port_ok (i + k) = true) →
      portsLoop env C i r =
        (true, (List.range' i r).flatMap
          (fun k => [mkPort Direction.input k C, mkPort Direction.output k C])) := by
  intro r
  induction r with
  | zero => intro i _; simp [portsLoop]
  | succ n ih =>
      intro i h
      have h0 := h 0 (by omega)
      simp only [Nat.add_zero] at h0
      have hrest := ih (i + 1) (fun k hk => by
        have := h (k + 1) (by omega)
        rwa [show i + (k + 1) = i + 1 + k by omega] at this)
      rw [portsLoop, h0.1, h0.2]
      simp [hrest, List.range'_succ]

lemma portsLoop_true (env : CreateEnv) (C : Nat) :
    ∀ r i, (portsLoop env C i r).1 = true →
      ∀ k < r, env.in_port_ok (i + k) = true ∧ env.out_port_ok (i + k) = true := by
  intro r
  induction r with
  | zero => intro i _ k hk; omega
  | succ n ih =>
      intro i htrue k hk
      rw [portsLoop] at htrue
      cases hin : env.in_port_ok i with
      | false => rw [hin] at htrue; simp at htrue
      | true =>
          rw [hin] at htrue
          cases hout : env.out_port_ok i with
          | false => rw [hout] at htrue; simp at htrue
          | true =>
              rw [hout] at htrue
              simp only [if_true, reduceIte] at htrue
              cases k with
              | zero => simpa using ⟨hin, hout⟩
              | succ k' =>
                  have := ih (i + 1) htrue k' (by omega)
                  rwa [show i + 1 + k' = i + (k' + 1) by omega] at this

lemma baseAlloc_perm :
    baseAlloc.Perm [Resource.filterObj, Resource.core, Resource.ctx,
      Resource.inArr, Resource.outArr, Resource.node] := by decide

lemma alloc_perm_destroyFreed (ports : List Port) :
    (baseAlloc ++ ports.map portRes).Perm (destroyFreed ports) := by
  unfold destroyFreed
  exact (List.perm_append_comm).trans (List.Perm.append_left _ baseAlloc_perm)

lemma create_allOk (N : Nat) (env : CreateEnv) (hok : allOk env N) :
    create (some ()) N env =
      ⟨some ⟨N, createPorts N⟩, baseAlloc ++ (createPorts N).map portRes, []⟩ := by
  rcases hok with ⟨h1, h2, h3, h4, h5⟩
  have hpl : portsLoop env N 0 N = (true, createPorts N) := by
    have := portsLoop_allOk env N N 0 (fun k hk => by simpa using h4 k hk)
    rwa [show List.range' 0 N = List.range N from (List.range_eq_range' N).symm] at this
  simp [create, h1, h2, h3, h5, hpl, createPorts]

lemma processChannel_full (cnt n r i ib ob ip op : Nat) :
    processChannel cnt n r i ⟨some ib, some ob, some ip, some op⟩ =
      (if cnt < 20 then [Event.chDebug i (some ib) (some ob)] else []) ++
      [Event.dspStep ip op n r i, Event.requeueIn i ib, Event.requeueOut i ob] := by
  simp [processChannel, requeueInEvents]

lemma filter_isDspStep_ite_single (c : Prop) [Decidable c] (e : Event)
    (he : isDspStep e = false) :
    (if c then [e] else []).filter isDspStep = [] := by
  split <;> simp [he]

lemma filter_isDspStep_summary (c n r : Nat) :
    (summaryEvents c n r).filter isDspStep = [] := by
  unfold summaryEvents
  split <;> simp [isDspStep]

lemma requeued_in_channel (cnt n r i : Nat) (env : ChannelEnv) (b ob : Nat) :
    (env.in_buf = some b → Event.requeueIn i b ∈ processChannel cnt n r i env) ∧
    (env.out_buf = some ob → Event.requeueOut i ob ∈ processChannel cnt n r i env) := by
  rcases env with ⟨ibuf, obuf, idsp, odsp⟩
  constructor
  · intro h
    simp only at h
    subst h
    cases obuf <;> cases odsp <;> cases idsp <;>
      simp [processChannel, requeueInEvents]
  · intro h
    simp only at h
    subst h
    cases ibuf <;> cases odsp <;> cases idsp <;>
      simp [processChannel, requeueInEvents]

lemma dspStep_mem_processChannel (cnt n r i a b s rr ch : Nat) (env : ChannelEnv)
    (h : Event.dspStep a b s rr ch ∈ processChannel cnt n r i env) :
    s = n ∧ rr = r ∧ ch = i := by
  rcases env with ⟨ibuf, obuf, idsp, odsp⟩
  cases obuf <;> cases ibuf <;> cases odsp <;> cases idsp <;>
    simp [processChannel, requeueInEvents] at h <;> simp_all

lemma no_summary_in_processChannel (cnt n r i c ns rs : Nat) (env : ChannelEnv)
    (h : Event.summary c ns rs ∈ processChannel cnt n r i env) : False := by
  rcases env with ⟨ibuf, obuf, idsp, odsp⟩
  cases obuf <;> cases ibuf <;> cases odsp <;> cases idsp <;>
    simp [processChannel, requeueInEvents] at h

/-! ## Claim theorems -/

/-- C1: with two channels both fully connected (input and output dequeues
succeed and both sample blocks are acquired) and a quantum of 128 samples,
one `on_process` invocation emits exactly two DSP-step calls, with channel
indices 0 and 1 and sample count 128 each, and every dequeued input and
output buffer is requeued within the same invocation. -/
theorem process_two_channels_full (cnt : Nat) (p : Position) (env : Nat → ChannelEnv)
    (ib0 ob0 ip0 op0 ib1 ob1 ip1 op1 : Nat)
    (h0 : env 0 = ⟨some ib0, some ob0, some ip0, some op0⟩)
    (h1 : env 1 = ⟨some ib1, some ob1, some ip1, some op1⟩)
    (hdur : p.duration = 128) :
    dspSteps (on_process 2 cnt (some p) env) =
      [Event.dspStep ip0 op0 128 (effectiveRate p) 0,
       Event.dspStep ip1 op1 128 (effectiveRate p) 1] ∧
    Event.requeueIn 0 ib0 ∈ on_process 2 cnt (some p) env ∧
    Event.requeueOut 0 ob0 ∈ on_process 2 cnt (some p) env ∧
    Event.requeueIn 1 ib1 ∈ on_process 2 cnt (some p) env ∧
    Event.requeueOut 1 ob1 ∈ on_process 2 cnt (some p) env := by
  have hr : List.range 2 = [0, 1] := rfl
  refine ⟨?_, ?_, ?_, ?_, ?_⟩ <;>
    simp [on_process, hr, h0, h1, hdur, processChannel_full, dspSteps,
      List.filter_append, filter_isDspStep_summary, filter_isDspStep_ite_single,
      isDspStep, summaryEvents]

/-- Witness for C1 at a concrete fully-connected two-channel input. -/
theorem process_two_channels_full_witness :
    envFull 0 = ⟨some 10, some 20, some 30, some 40⟩ ∧
    envFull 1 = ⟨some 11, some 21, some 31, some 41⟩ ∧
    (⟨128, 48000⟩ : Position).duration = 128 ∧
    (dspSteps (on_process 2 1 (some ⟨128, 48000⟩) envFull) =
      [Event.dspStep 30 40 128 (effectiveRate ⟨128, 48000⟩) 0,
       Event.dspStep 31 41 128 (effectiveRate ⟨128, 48000⟩) 1] ∧
     Event.requeueIn 0 10 ∈ on_process 2 1 (some ⟨128, 48000⟩) envFull ∧
     Event.requeueOut 0 20 ∈ on_process 2 1 (some ⟨128, 48000⟩) envFull ∧
     Event.requeueIn 1 11 ∈ on_process 2 1 (some ⟨128, 48000⟩) envFull ∧
     Event.requeueOut 1 21 ∈ on_process 2 1 (some ⟨128, 48000⟩) envFull) :=
  ⟨rfl, rfl, rfl,
   process_two_channels_full 1 ⟨128, 48000⟩ envFull 10 20 30 40 11 21 31 41 rfl rfl rfl⟩

/-- C2: when the output buffer was dequeued and its writable block acquired
but no valid input block is available (no input buffer, or its block
acquisition failed), the channel's iteration zero-fills the output block
and then invokes the DSP step exactly once, with the same block pointer as
both input and output. -/
theorem silence_fallback (cnt n r i : Nat) (env : ChannelEnv) (ob op : Nat)
    (hob : env.out_buf = some ob) (hop : env.out_dsp = some op)
    (hin : env.in_buf = none ∨ env.in_dsp = none) :
    (∃ pre post, processChannel cnt n r i env =
        pre ++ Event.zeroFill op n :: Event.dspStep op op n r i :: post) ∧
    dspSteps (processChannel cnt n r i env) = [Event.dspStep op op n r i] := by
  rcases env with ⟨ibuf, obuf, idsp, odsp⟩
  simp only at hob hop
  subst hob
  subst hop
  rcases hin with hib | hid
  · simp only at hib
    subst hib
    constructor
    · exact ⟨if cnt < 20 then [Event.chDebug i none (some ob)] else [],
        [Event.requeueOut i ob], by simp [processChannel, requeueInEvents]⟩
    · simp [processChannel, requeueInEvents, dspSteps, List.filter_append,
        filter_isDspStep_ite_single, isDspStep]
  · simp only at hid
    subst hid
    cases ibuf with
    | none =>
        constructor
        · exact ⟨if cnt < 20 then [Event.chDebug i none (some ob)] else [],
            [Event.requeueOut i ob], by simp [processChannel, requeueInEvents]⟩
        · simp [processChannel, requeueInEvents, dspSteps, List.filter_append,
            filter_isDspStep_ite_single, isDspStep]
    | some b =>
        constructor
        · exact ⟨if cnt < 20 then [Event.chDebug i (some b) (some ob)] else [],
            [Event.requeueIn i b, Event.requeueOut i ob],
            by simp [processChannel, requeueInEvents]⟩
        · simp [processChannel, requeueInEvents, dspSteps, List.filter_append,
            filter_isDspStep_ite_single, isDspStep]

/-- Witness for C2 at a concrete no-input channel environment. -/
theorem silence_fallback_witness :
    (⟨none, some 5, none, some 7⟩ : ChannelEnv).out_buf = some 5 ∧
    (⟨none, some 5, none, some 7⟩ : ChannelEnv).out_dsp = some 7 ∧
    ((⟨none, some 5, none, some 7⟩ : ChannelEnv).in_buf = none ∨
     (⟨none, some 5, none, some 7⟩ : ChannelEnv).in_dsp = none) ∧
    ((∃ pre post, processChannel 1 128 48000 0 ⟨none, some 5, none, some 7⟩ =
        pre ++ Event.zeroFill 7 128 :: Event.dspStep 7 7 128 48000 0 :: post) ∧
     dspSteps (processChannel 1 128 48000 0 ⟨none, some 5, none, some 7⟩) =
       [Event.dspStep 7 7 128 48000 0]) :=
  ⟨rfl, rfl, Or.inl rfl, silence_fallback 1 128 48000 0 _ 5 7 rfl rfl (Or.inl rfl)⟩

/-- C3: in every invocation of the process callback, for every channel
`i < channels`, a buffer successfully dequeued at the start of channel
`i`'s iteration (input or output) is requeued within that same iteration
(hence before the loop moves to the next channel), and therefore within
the invocation's trace, on every control path. -/
theorem every_dequeued_buffer_requeued (channels cnt : Nat) (p : Position)
    (env : Nat → ChannelEnv) (i b ob : Nat) (hi : i < channels) :
    ((env i).in_buf = some b →
      Event.requeueIn i b ∈ processChannel cnt p.duration (effectiveRate p) i (env i) ∧
      Event.requeueIn i b ∈ on_process channels cnt (some p) env) ∧
    ((env i).out_buf = some ob →
      Event.requeueOut i ob ∈ processChannel cnt p.duration (effectiveRate p) i (env i) ∧
      Event.requeueOut i ob ∈ on_process channels cnt (some p) env) := by
  constructor
  · intro h
    have hin := (requeued_in_channel cnt p.duration (effectiveRate p) i (env i) b ob).1 h
    refine ⟨hin, ?_⟩
    simp only [on_process, List.mem_append]
    right
    rw [List.mem_flatMap]
    exact ⟨i, by simp [List.mem_range, hi], hin⟩
  · intro h
    have hout := (requeued_in_channel cnt p.duration (effectiveRate p) i (env i) b ob).2 h
    refine ⟨hout, ?_⟩
    simp only [on_process, List.mem_append]
    right
    rw [List.mem_flatMap]
    exact ⟨i, by simp [List.mem_range, hi], hout⟩

/-- Witness for C3 at a concrete fully-connected one-channel input. -/
theorem every_dequeued_buffer_requeued_witness :
    (0 < 1 ∧
      (Event.requeueIn 0 5 ∈
          processChannel 1 128 (effectiveRate ⟨128, 48000⟩) 0 ⟨some 5, some 6, some 7, some 8⟩ ∧
        Event.requeueIn 0 5 ∈
          on_process 1 1 (some ⟨128, 48000⟩) (fun _ => ⟨some 5, some 6, some 7, some 8⟩))) ∧
    (Event.requeueOut 0 6 ∈
        processChannel 1 128 (effectiveRate ⟨128, 48000⟩) 0 ⟨some 5, some 6, some 7, some 8⟩ ∧
      Event.requeueOut 0 6 ∈
        on_process 1 1 (some ⟨128, 48000⟩) (fun _ => ⟨some 5, some 6, some 7, some 8⟩)) :=
  ⟨⟨by decide,
    (every_dequeued_buffer_requeued 1 1 ⟨128, 48000⟩
      (fun _ => ⟨some 5, some 6, some 7, some 8⟩) 0 5 6 (by decide)).1 rfl⟩,
   (every_dequeued_buffer_requeued 1 1 ⟨128, 48000⟩
      (fun _ => ⟨some 5, some 6, some 7, some 8⟩) 0 5 6 (by decide)).2 rfl⟩

/-- C4: whenever one of the fallible construction steps fails (context,
core connection, filter creation, any port creation within range, or the
connect request), `create_pipewire_filter` returns the single error result
NULL and every resource allocated during the call has been released (the
released multiset equals the allocated multiset). -/
theorem create_releases_all_on_failure (channels : Nat) (env : CreateEnv)
    (hfail : stepFails env channels) :
    (create (some ()) channels env).handle = none ∧
      ((create (some ()) channels env).allocated).Perm
        ((create (some ()) channels env).freed) := by
  cases hctx : env.ctx_ok with
  | false =>
      have hcr : create (some ()) channels env =
          ⟨none, [Resource.node], [Resource.node]⟩ := by
        simp [create, hctx]
      rw [hcr]
      exact ⟨rfl, List.Perm.refl _⟩
  | true =>
  cases hcore : env.core_ok with
  | false =>
      have hcr : create (some ()) channels env =
          ⟨none, [Resource.node, Resource.ctx], [Resource.ctx, Resource.node]⟩ := by
        simp [create, hctx, hcore]
      rw [hcr]
      exact ⟨rfl, by decide⟩
  | true =>
  cases hfil : env.filter_ok with
  | false =>
      have hcr : create (some ()) channels env =
          ⟨none, [Resource.node, Resource.ctx, Resource.core],
           [Resource.core, Resource.ctx, Resource.node]⟩ := by
        simp [create, hctx, hcore, hfil]
      rw [hcr]
      exact ⟨rfl, by decide⟩
  | true =>
  cases hlp : (portsLoop env channels 0 channels).1 with
  | false =>
      have hcr : create (some ()) channels env =
          ⟨none, baseAlloc ++ (portsLoop env channels 0 channels).2.map portRes,
           destroyFreed (portsLoop env channels 0 channels).2⟩ := by
        simp [create, hctx, hcore, hfil, hlp]
      rw [hcr]
      exact ⟨rfl, alloc_perm_destroyFreed _⟩
  | true =>
  cases hconn : env.connect_ok with
  | false =>
      have hcr : create (some ()) channels env =
          ⟨none, baseAlloc ++ (portsLoop env channels 0 channels).2.map portRes,
           destroyFreed (portsLoop env channels 0 channels).2⟩ := by
        simp [create, hctx, hcore, hfil, hlp, hconn]
      rw [hcr]
      exact ⟨rfl, alloc_perm_destroyFreed _⟩
  | true =>
      exfalso
      rcases hfail with h | h | h | ⟨i, hi, h⟩ | h
      · rw [hctx] at h; exact absurd h (by decide)
      · rw [hcore] at h; exact absurd h (by decide)
      · rw [hfil] at h; exact absurd h (by decide)
      · have hall := portsLoop_true env channels channels 0 hlp i (by omega)
        rw [Nat.zero_add] at hall
        rcases h with h | h
        · rw [hall.1] at h; exact absurd h (by decide)
        · rw [hall.2] at h; exact absurd h (by decide)
      · rw [hconn] at h; exact absurd h (by decide)

/-- Witness for C4 at a concrete environment whose connect request fails. -/
theorem create_releases_all_on_failure_witness :
    stepFails envConnFail 1 ∧
    ((create (some ()) 1 envConnFail).handle = none ∧
      ((create (some ()) 1 envConnFail).allocated).Perm
        ((create (some ()) 1 envConnFail).freed)) :=
  ⟨by unfold stepFails; decide,
   create_releases_all_on_failure 1 envConnFail (by unfold stepFails; decide)⟩

/-- C5: when no output buffer can be dequeued for a channel, that channel's
iteration performs no DSP step, and an input buffer that was dequeued is
requeued within the same iteration. -/
theorem no_output_buffer_skips_channel (cnt n r i : Nat) (env : ChannelEnv) (b : Nat)
    (hout : env.out_buf = none) :
    dspSteps (processChannel cnt n r i env) = [] ∧
    (env.in_buf = some b → Event.requeueIn i b ∈ processChannel cnt n r i env) := by
  rcases env with ⟨ibuf, obuf, idsp, odsp⟩
  simp only at hout
  subst hout
  constructor
  · cases ibuf <;>
      simp [processChannel, requeueInEvents, dspSteps, List.filter_append,
        filter_isDspStep_ite_single, isDspStep]
  · intro h
    simp only at h
    subst h
    simp [processChannel, requeueInEvents]

/-- Witness for C5 at a concrete channel environment with no output buffer. -/
theorem no_output_buffer_skips_channel_witness :
    (⟨some 5, none, some 7, none⟩ : ChannelEnv).out_buf = none ∧
    (dspSteps (processChannel 1 128 48000 0 ⟨some 5, none, some 7, none⟩) = [] ∧
     ((⟨some 5, none, some 7, none⟩ : ChannelEnv).in_buf = some 5 →
       Event.requeueIn 0 5 ∈ processChannel 1 128 48000 0 ⟨some 5, none, some 7, none⟩)) :=
  ⟨rfl, no_output_buffer_skips_channel 1 128 48000 0 ⟨some 5, none, some 7, none⟩ 5 rfl⟩

/-- C6 counterexample: the claim says that for N > 2 the position tag is
unspecified, but `get_channel_config` maps channel 0 of 5 to the mono
position tag, which is a different tag from the unspecified one. -/
theorem channel_pos_not_unspecified :
    (get_channel_config 0 5).2 = ChannelPos.mono ∧
    ¬ (get_channel_config 0 5).2 = ChannelPos.unspec := by
  decide

/-- C6 (amended): for every channel count N, a successful create returns a
handle holding exactly the 2N ports (N input, N output) of the
construction loop, port names are unique, every port's name and position
follow `get_channel_config` for its channel, and the label/position policy
is: N=1 gives MONO with mono position, N=2 gives FL/front-left and
FR/front-right, and N>2 gives CH{i+1} with the mono (not unspecified)
position. -/
theorem create_yields_labelled_ports (N : Nat) (env : CreateEnv) (hok : allOk env N) :
    (create (some ()) N env).handle = some ⟨N, createPorts N⟩ ∧
    (createPorts N).length = 2 * N ∧
    (createPorts N).countP isInputPort = N ∧
    (createPorts N).countP isOutputPort = N ∧
    (∀ p ∈ createPorts N, ∀ q ∈ createPorts N, p.name = q.name → p = q) ∧
    (∀ p ∈ createPorts N, p.channel < N ∧
        p.name = dirTag p.direction ++ (get_channel_config p.channel N).1 ∧
        p.pos = (get_channel_config p.channel N).2) ∧
    (N = 1 → get_channel_config 0 N = ("MONO", ChannelPos.mono)) ∧
    (N = 2 → get_channel_config 0 N = ("FL", ChannelPos.fl) ∧
             get_channel_config 1 N = ("FR", ChannelPos.fr)) ∧
    (2 < N → ∀ i < N, get_channel_config i N = ("CH" ++ natDecimal (i + 1), ChannelPos.mono)) := by
  refine ⟨by rw [create_allOk N env hok], (createPorts_counts N).1,
    (createPorts_counts N).2.1, (createPorts_counts N).2.2,
    createPorts_names_unique N, ?_, ?_, ?_, ?_⟩
  · intro p hp
    rcases mem_createPorts.mp hp with ⟨i, hi, hp' | hp'⟩ <;> subst hp' <;>
      exact ⟨hi, rfl, rfl⟩
  · intro h1; subst h1; decide
  · intro h2; subst h2; decide
  · intro hgt i hi
    have hne2 : ¬ N = 2 := by omega
    have hne1 : ¬ N = 1 := by omega
    simp [get_channel_config, hne2, hne1]

/-- Witness for C6 (amended) at N = 5 with every construction step
succeeding. -/
theorem create_yields_labelled_ports_witness :
    allOk envAllOk 5 ∧
    ((create (some ()) 5 envAllOk).handle = some ⟨5, createPorts 5⟩ ∧
     (createPorts 5).length = 2 * 5 ∧
     (createPorts 5).countP isInputPort = 5 ∧
     (createPorts 5).countP isOutputPort = 5 ∧
     (∀ p ∈ createPorts 5, ∀ q ∈ createPorts 5, p.name = q.name → p = q) ∧
     (∀ p ∈ createPorts 5, p.channel < 5 ∧
         p.name = dirTag p.direction ++ (get_channel_config p.channel 5).1 ∧
         p.pos = (get_channel_config p.channel 5).2) ∧
     ((5 : Nat) = 1 → get_channel_config 0 5 = ("MONO", ChannelPos.mono)) ∧
     ((5 : Nat) = 2 → get_channel_config 0 5 = ("FL", ChannelPos.fl) ∧
              get_channel_config 1 5 = ("FR", ChannelPos.fr)) ∧
     (2 < 5 → ∀ i < 5, get_channel_config i 5 = ("CH" ++ natDecimal (i + 1), ChannelPos.mono))) :=
  ⟨⟨rfl, rfl, rfl, fun _ _ => ⟨rfl, rfl⟩, rfl⟩,
   create_yields_labelled_ports 5 envAllOk ⟨rfl, rfl, rfl, fun _ _ => ⟨rfl, rfl⟩, rfl⟩⟩

/-- C7: `destroy_pipewire_filter` on a NULL handle is a no-op that
completes without fault, but a second call on the same non-NULL handle
dereferences memory freed by the first call and faults — the code does not
provide the claimed double-destroy guarantee. -/
theorem destroy_null_noop_double_destroy_faults :
    destroyRef HandleRef.null = some HandleRef.null ∧
    (destroyRef HandleRef.live).bind destroyRef = none := by
  decide

/-- C8: every DSP step emitted by an `on_process` invocation with a present
position carries the position's duration as its sample count, and as its
rate the position's clock-rate denominator when that is nonzero and the
default 48000 otherwise. -/
theorem dsp_rate_from_position (channels cnt : Nat) (p : Position) (env : Nat → ChannelEnv)
    (a b s r ch : Nat)
    (h : Event.dspStep a b s r ch ∈ on_process channels cnt (some p) env) :
    s = p.duration ∧ r = (if 0 < p.rateDenom then p.rateDenom else 48000) := by
  simp only [on_process, List.mem_append] at h
  rcases h with h | h
  · exfalso
    unfold summaryEvents at h
    revert h
    split <;> simp
  · rw [List.mem_flatMap] at h
    rcases h with ⟨j, _, hj⟩
    have hs := dspStep_mem_processChannel cnt p.duration (effectiveRate p) j a b s r ch _ hj
    refine ⟨hs.1, ?_⟩
    rw [hs.2.1]
    rfl

/-- Witness for C8 at a concrete invocation with denominator 44100. -/
theorem dsp_rate_from_position_witness :
    Event.dspStep 30 40 128 44100 0 ∈
      on_process 1 1 (some ⟨128, 44100⟩) (fun _ => ⟨some 10, some 20, some 30, some 40⟩) ∧
    ((128 : Nat) = (⟨128, 44100⟩ : Position).duration ∧
     (44100 : Nat) = (if 0 < (⟨128, 44100⟩ : Position).rateDenom
        then (⟨128, 44100⟩ : Position).rateDenom else 48000)) :=
  ⟨by decide,
   dsp_rate_from_position 1 1 ⟨128, 44100⟩ (fun _ => ⟨some 10, some 20, some 30, some 40⟩)
     30 40 128 44100 0 (by decide)⟩

/-- C9: there are constants K = 19 and M = 100 such that an `on_process`
invocation with a present position emits its process-cycle summary exactly
when the cycle number is at most K or a multiple of M (so each of the
first K cycles emits unconditionally, and later cycles emit exactly at
multiples of M). -/
theorem summary_rate_limited :
    ∃ K M : Nat, K = 19 ∧ M = 100 ∧
      ∀ (channels cnt : Nat) (p : Position) (env : Nat → ChannelEnv),
        (Event.summary cnt p.duration (effectiveRate p) ∈
            on_process channels cnt (some p) env ↔ (cnt ≤ K ∨ M ∣ cnt)) := by
  refine ⟨19, 100, rfl, rfl, ?_⟩
  intro channels cnt p env
  simp only [on_process, List.mem_append]
  constructor
  · rintro (h | h)
    · unfold summaryEvents at h
      by_cases hc : cnt < 20 ∨ cnt % 100 = 0
      · omega
      · rw [if_neg hc] at h
        simp at h
    · exfalso
      rw [List.mem_flatMap] at h
      rcases h with ⟨j, _, hj⟩
      exact no_summary_in_processChannel cnt p.duration (effectiveRate p) j cnt
        p.duration (effectiveRate p) _ hj
  · intro h
    left
    unfold summaryEvents
    have hc : cnt < 20 ∨ cnt % 100 = 0 := by
      rcases h with h | h
      · omega
      · right; omega
    rw [if_pos hc]
    simp

/-- C10: `create_pipewire_filter` with a NULL loop handle returns the error
result immediately, with no resource allocated and none released. -/
theorem create_null_loop_no_side_effects (channels : Nat) (env : CreateEnv) :
    (create none channels env).handle = none ∧
    (create none channels env).allocated = [] ∧
    (create none channels env).freed = [] :=
  ⟨rfl, rfl, rfl⟩

end PwComp
